import Mathlib

/-!
Shallow embedding of the grain-scheduling core of `GrainPlayer`
(src/Tone/source/buffer/GrainPlayer.ts) over exact rational time.

Times, durations, frequencies and rates are `ℚ` (absolute seconds /
hertz); input `Time` values are taken as already resolved to seconds.
External collaborators of the scheduler (the `Source` state machine,
the periodic `Clock`, the grain primitive `ToneBufferSource`, and the
helpers `assertRange`, `defaultArg`, `toSeconds`,
`intervalToFrequencyRatio`) have no source under src/ and are modelled
from the spec where noted.
-/

namespace Tone

/-- The two playback states of the scheduler's state machine and of the
periodic clock ("stopped" initial/terminal, "started"). -/
inductive PlayState where
  | stopped
  | started
deriving DecidableEq, Repr

/-- Modelled from the spec: `toSeconds` resolves a `Time` input to absolute
seconds. Inputs in this embedding are already rational seconds, so the
resolution is the identity. -/
def toSeconds (t : ℚ) : ℚ := t

/-- Modelled from the spec: `defaultArg(arg, fallback)` (core/util/Defaults)
returns the fallback when the argument is not given. -/
def defaultArg (arg : Option ℚ) (fallback : ℚ) : ℚ := arg.getD fallback

/-- Modelled from the spec: `assertRange` (core/util/Debug) signals a
RangeError when the value falls outside the permitted range. Per §4.1 the
`playbackRate` "must exceed 0.001; failing this signals an out-of-range
error and leaves prior state unchanged", and §8: "a value ≤ 0.001 ...
signals a range error" — so the check rejects every value that does not
strictly exceed the given floor. -/
def assertRange (value : ℚ) (floor : ℚ) : Except String Unit :=
  if value ≤ floor then Except.error "Value is outside the range" else Except.ok ()

/-- Modelled from the spec: `intervalToFrequencyRatio` (core/type/Conversions)
maps an interval of `interval` semitones to the equal-tempered frequency
ratio `2 ^ (interval / 12)`. The ratio is irrational for almost every
interval, so it is represented injectively by its base-2 logarithm
`interval / 12`. -/
structure FreqMultiplier where
  log2Val : ℚ
deriving DecidableEq, Repr

/-- Modelled from the spec: the equal-tempered conversion, in the
representation of `FreqMultiplier`. -/
def intervalToFrequencyMultiplier (interval : ℚ) : FreqMultiplier :=
  ⟨interval / 12⟩

/-- Modelled from the spec: a grain primitive (`ToneBufferSource`) is a
one-shot playback unit with fade-in/fade-out envelope, optional internal
looping, a detune-derived rate multiplier, and recorded scheduled start
(time and buffer offset) and stop times. `id` stands for the object's
identity, used by the active set's `indexOf`. -/
structure ToneBufferSource where
  id : ℕ
  fadeIn : ℚ
  fadeOut : ℚ
  loop : Bool
  loopStart : ℚ
  loopEnd : ℚ
  playbackRate : FreqMultiplier
  startTime : Option ℚ := none
  startOffset : Option ℚ := none
  stopTime : Option ℚ := none
deriving DecidableEq, Repr

/-- Modelled from the spec: `source.start(time, offset)` schedules the grain
to begin sounding at `time`, reading the buffer from `offset`. -/
def ToneBufferSource.start (g : ToneBufferSource) (time offset : ℚ) :
    ToneBufferSource :=
  { g with startTime := some time, startOffset := some offset }

/-- Modelled from the spec: `source.stop(time)` schedules the grain to stop
sounding at `time` (a later call overrides an earlier scheduled stop). -/
def ToneBufferSource.stop (g : ToneBufferSource) (time : ℚ) :
    ToneBufferSource :=
  { g with stopTime := some time }

/-- Modelled from the spec: the periodic `Clock` collaborator. `frequency`
is the current value of its tick-frequency signal (the value a
`getValueAtTime` at the present time returns); `ticks` is the tick counter,
reset by every (re)start and equal, at the instant of a tick callback, to
that tick's index; `startTime` records the time the clock was last started
at. -/
structure Clock where
  frequency : ℚ
  state : PlayState
  ticks : ℚ
  startTime : Option ℚ := none
deriving DecidableEq, Repr

/-- The state of a `GrainPlayer`: its buffer (duration and reverse flag,
the fields the scheduler reads), its periodic clock, the `Source` state
machine value, the recorded automatic-stop time scheduled by `_start`, the
internal parameter fields, the active-source array, the id to give the
next spawned source, and the log of times at which the `onstop`
notification fired. -/
structure GrainPlayer where
  bufferDuration : ℚ
  bufferReverse : Bool
  clock : Clock
  sourceState : PlayState
  scheduledStop : Option ℚ := none
  _playbackRate : ℚ
  _grainSize : ℚ
  _overlap : ℚ
  detune : ℚ
  loop : Bool
  _loopStart : ℚ
  _loopEnd : ℚ
  _activeSources : List ToneBufferSource
  nextId : ℕ
  onstopFired : List ℚ := []
deriving DecidableEq, Repr

namespace GrainPlayer

/-- Handler `_onstop` (GrainPlayer.ts lines 178-185): invoked when the clock is
stopped. Each active source gets `fadeOut = 0` and a `stop(time)` call;
then the `onstop` notification fires. -/
def _onstop (s : GrainPlayer) (time : ℚ) : GrainPlayer :=
  { s with
    _activeSources :=
      s._activeSources.map fun src =>
        ToneBufferSource.stop { src with fadeOut := 0 } time
    onstopFired := s.onstopFired ++ [time] }

/-- Modelled from the spec: `clock.stop(time)` halts the clock and fires
its "stopped" event once per stop with the stop time; the player's
constructor registers `_onstop` on that event. -/
def clockStop (s : GrainPlayer) (time : ℚ) : GrainPlayer :=
  if s.clock.state = PlayState.started then
    _onstop { s with clock := { s.clock with state := PlayState.stopped } } time
  else s

/-- Method `_stop` (GrainPlayer.ts lines 171-173): stops the clock. -/
def _stop (s : GrainPlayer) (time : ℚ) : GrainPlayer :=
  clockStop s time

/-- Modelled from the spec: the public `stop(time)` of the `Source` base
class — valid only from started (transition started → stopped, invoking
`_stop`); calling it while stopped is a no-op. -/
def stop (s : GrainPlayer) (time : ℚ) : GrainPlayer :=
  if s.sourceState = PlayState.started then
    _stop { s with sourceState := PlayState.stopped } (toSeconds time)
  else s

/-- Method `_start` (GrainPlayer.ts lines 139-150): defaults `offset` to 0,
resolves `offset` and `time` to seconds, derives the grain duration from
the clock's instantaneous frequency, starts the clock at `time` with
initial tick count `offset / grainSize`, and — when a truthy `duration`
is given (`if (duration)`: a zero value is falsy) — schedules an
automatic stop at `time + duration`. Modelled from the spec: `this.stop`
at that strictly future time "schedules an automatic stop at
`time + duration`" (§4.2), recorded here in `scheduledStop`. -/
def _start (s : GrainPlayer) (time : ℚ) (offset : Option ℚ)
    (duration : Option ℚ) : GrainPlayer :=
  let offsetSec := toSeconds (defaultArg offset 0)
  let timeSec := toSeconds time
  let grainSize := 1 / s.clock.frequency
  let s :=
    { s with
      clock :=
        { s.clock with
          state := PlayState.started
          ticks := offsetSec / grainSize
          startTime := some timeSec } }
  match duration with
  | some d =>
      if d = 0 then s
      else { s with scheduledStop := some (timeSec + toSeconds d) }
  | none => s

/-- Modelled from the spec: the public `start(time, offset, duration)` of
the `Source` base class — valid only from stopped (transition stopped →
started, invoking `_start`); calling it while already started is a
no-op. -/
def start (s : GrainPlayer) (time : ℚ) (offset : Option ℚ)
    (duration : Option ℚ) : GrainPlayer :=
  if s.sourceState = PlayState.started then s
  else _start { s with sourceState := PlayState.started } time offset duration

/-- Method `restart` (GrainPlayer.ts lines 159-166): resolves `time`; when the
state at `time` is started, performs `_stop(time)` then
`_start(time, offset, duration)`; otherwise does nothing. -/
def restart (s : GrainPlayer) (time : ℚ) (offset : Option ℚ)
    (duration : Option ℚ) : GrainPlayer :=
  let timeSec := toSeconds time
  if s.sourceState = PlayState.started then
    _start (_stop s timeSec) timeSec offset duration
  else s

/-- The grain built and scheduled by the spawn branch of `_tick`
(GrainPlayer.ts lines 202-219): fade-in 0 at the beginning of the file
(offset below the overlap) and `_overlap` otherwise, fade-out `_overlap`,
the scheduler's loop fields, rate multiplier from `detune` alone, started
at `time` reading from `_grainSize * ticks`, and stopped at
`time + _grainSize / playbackRate`. -/
def grainFor (s : GrainPlayer) (time : ℚ) : ToneBufferSource :=
  let ticks := s.clock.ticks
  let grainSize := 1 / s.clock.frequency
  let offset := ticks * grainSize
  let fadeIn := if offset < s._overlap then 0 else s._overlap
  let source : ToneBufferSource :=
    { id := s.nextId
      fadeIn := fadeIn
      fadeOut := s._overlap
      loop := s.loop
      loopStart := s._loopStart
      loopEnd := s._loopEnd
      playbackRate := intervalToFrequencyMultiplier (s.detune / 100) }
  let source := source.start time (s._grainSize * ticks)
  ToneBufferSource.stop source (time + s._grainSize / s._playbackRate)

/-- Callback `_tick` (GrainPlayer.ts lines 190-230): invoked on each clock tick.
Reads the tick index at `time` (the clock's counter at a tick instant)
and the instantaneous frequency; when looping is off and the computed
offset exceeds the buffer duration, stops the player at `time` and
spawns nothing; otherwise spawns the grain and appends it to the active
sources. -/
def _tick (s : GrainPlayer) (time : ℚ) : GrainPlayer :=
  let ticks := s.clock.ticks
  let grainSize := 1 / s.clock.frequency
  let offset := ticks * grainSize
  if !s.loop ∧ offset > s.bufferDuration then
    stop s time
  else
    { s with
      _activeSources := s._activeSources ++ [grainFor s time]
      nextId := s.nextId + 1 }

/-- Modelled from the spec: after a tick callback returns, the clock —
when the callback has not stopped it — advances its counter to the next
tick's index. -/
def advanceIfRunning (s : GrainPlayer) : GrainPlayer :=
  if s.clock.state = PlayState.started then
    { s with clock := { s.clock with ticks := s.clock.ticks + 1 } }
  else s

/-- Modelled from the spec: the periodic clock invokes `_tick` once per
tick with the tick's time and then advances its counter; a stopped clock
produces no ticks, so processing a tick on a stopped player is the
identity. -/
def processTick (s : GrainPlayer) (time : ℚ) : GrainPlayer :=
  if s.clock.state = PlayState.started then
    advanceIfRunning (_tick s time)
  else s

/-- The `indexOf` call of the `onended` handler (GrainPlayer.ts line 225):
first index of the source — identified by `id` — in the active array,
`none` playing the role of `-1`. -/
def indexOfById (l : List ToneBufferSource) (gid : ℕ) : Option ℕ :=
  match l with
  | [] => none
  | g :: rest =>
      if g.id = gid then some 0 else (indexOfById rest gid).map (· + 1)

/-- The list-level body of the `onended` handler (GrainPlayer.ts lines
224-229): `indexOf` the source, and if present `splice` it out. -/
def removeById (l : List ToneBufferSource) (gid : ℕ) : List ToneBufferSource :=
  match indexOfById l gid with
  | some index => l.eraseIdx index
  | none => l

/-- The completion handler registered on each spawned source
(GrainPlayer.ts lines 224-229): removes the source from the active array
when it is found there. -/
def onended (s : GrainPlayer) (gid : ℕ) : GrainPlayer :=
  { s with _activeSources := removeById s._activeSources gid }

/-- Setter `set grainSize` (GrainPlayer.ts lines 282-285): stores the
seconds-resolved size and applies `playbackRate / grainSize` to the
clock's frequency signal at the current time. -/
def set_grainSize (s : GrainPlayer) (size : ℚ) : GrainPlayer :=
  let s := { s with _grainSize := toSeconds size }
  { s with clock := { s.clock with frequency := s._playbackRate / s._grainSize } }

/-- Setter `set playbackRate` (GrainPlayer.ts lines 238-242): asserts the rate
against the 0.001 floor, stores it, and re-runs the `grainSize` setter on
the stored grain size to recompute the clock frequency. -/
def set_playbackRate (s : GrainPlayer) (rate : ℚ) : Except String GrainPlayer :=
  match assertRange rate (1 / 1000) with
  | Except.error e => Except.error e
  | Except.ok _ =>
      let s := { s with _playbackRate := rate }
      Except.ok (set_grainSize s s._grainSize)

/-- Setter `set overlap` (GrainPlayer.ts lines 293-295): stores the
seconds-resolved overlap; no validation, no other effect. -/
def set_overlap (s : GrainPlayer) (time : ℚ) : Except String GrainPlayer :=
  Except.ok { s with _overlap := toSeconds time }

end GrainPlayer

/-- A concrete grain, used to exercise the definitions on explicit
states. -/
def sampleGrain : ToneBufferSource :=
  { id := 0
    fadeIn := 0
    fadeOut := 1 / 10
    loop := false
    loopStart := 0
    loopEnd := 0
    playbackRate := ⟨0⟩ }

/-- A concrete stopped player holding the library defaults
(`grainSize = 0.2`, `overlap = 0.1`, `playbackRate = 1`, clock frequency
`playbackRate / grainSize = 5`) over a 2-second buffer. -/
def sample : GrainPlayer :=
  { bufferDuration := 2
    bufferReverse := false
    clock := { frequency := 5, state := PlayState.stopped, ticks := 0 }
    sourceState := PlayState.stopped
    _playbackRate := 1
    _grainSize := 1 / 5
    _overlap := 1 / 10
    detune := 0
    loop := false
    _loopStart := 0
    _loopEnd := 0
    _activeSources := []
    nextId := 1 }

/-- State `sample`, started at time 0 and caught at its 11th tick (the clock's
counter at 11, past the 2-second buffer), with one grain in flight. -/
def sampleRunning : GrainPlayer :=
  { sample with
    sourceState := PlayState.started
    clock :=
      { frequency := 5, state := PlayState.started, ticks := 11
        startTime := some 0 }
    _activeSources := [sampleGrain] }

/-- State `sampleRunning` caught mid-buffer, at tick index 3 (offset 0.6). -/
def sampleMid : GrainPlayer :=
  { sampleRunning with clock := { sampleRunning.clock with ticks := 3 } }

/-- State `sampleRunning` caught at tick index 0 (offset 0, below the overlap). -/
def sampleAtStart : GrainPlayer :=
  { sampleRunning with clock := { sampleRunning.clock with ticks := 0 } }

/-- State `sampleRunning` with two distinct grains in flight (ids 0 and 1). -/
def sampleTwo : GrainPlayer :=
  { sampleRunning with
    _activeSources := [sampleGrain, { sampleGrain with id := 1 }] }

/-- Unfolding of `removeById` on a nonempty array: drop the head when it
is the searched source, otherwise keep it and recurse. -/
theorem removeById_cons (g : ToneBufferSource) (rest : List ToneBufferSource)
    (gid : ℕ) :
    GrainPlayer.removeById (g :: rest) gid =
      if g.id = gid then rest else g :: GrainPlayer.removeById rest gid := by
  by_cases h : g.id = gid
  · simp [GrainPlayer.removeById, GrainPlayer.indexOfById, h]
  · simp only [GrainPlayer.removeById, GrainPlayer.indexOfById, if_neg h]
    cases hfind : GrainPlayer.indexOfById rest gid with
    | none => simp
    | some i => simp [List.eraseIdx]

/-- A search among sources none of which carries the searched id comes
back empty-handed. -/
theorem indexOfById_eq_none (l : List ToneBufferSource) (gid : ℕ)
    (h : ∀ g ∈ l, g.id ≠ gid) :
    GrainPlayer.indexOfById l gid = none := by
  induction l with
  | nil => rfl
  | cons g rest ih =>
      have hg : g.id ≠ gid := h g (List.mem_cons_self g rest)
      have hrest : GrainPlayer.indexOfById rest gid = none :=
        ih fun x hx => h x (List.mem_cons_of_mem g hx)
      simp [GrainPlayer.indexOfById, hg, hrest]

/-- Removing an id that no active source carries changes nothing. -/
theorem removeById_of_not_mem (l : List ToneBufferSource) (gid : ℕ)
    (h : ∀ g ∈ l, g.id ≠ gid) :
    GrainPlayer.removeById l gid = l := by
  simp [GrainPlayer.removeById, indexOfById_eq_none l gid h]

/-- When the active sources carry pairwise distinct ids, no source with
the removed id survives the removal. -/
theorem mem_removeById_ne (l : List ToneBufferSource) (gid : ℕ)
    (hnodup : (l.map ToneBufferSource.id).Nodup) :
    ∀ g ∈ GrainPlayer.removeById l gid, g.id ≠ gid := by
  induction l with
  | nil => intro g hg; simp [GrainPlayer.removeById, GrainPlayer.indexOfById] at hg
  | cons a rest ih =>
      rw [removeById_cons]
      by_cases ha : a.id = gid
      · rw [if_pos ha]
        intro g hg
        have hnot : a.id ∉ rest.map ToneBufferSource.id :=
          (List.nodup_cons.mp hnodup).1
        intro hgid
        exact hnot (ha ▸ hgid ▸ List.mem_map_of_mem ToneBufferSource.id hg)
      · rw [if_neg ha]
        intro g hg
        rcases List.mem_cons.mp hg with hga | hgrest
        · exact hga ▸ ha
        · exact ih (List.nodup_cons.mp hnodup).2 g hgrest

/-- Removal only touches sources carrying the removed id: every other
source stays in the set. -/
theorem mem_removeById_of_ne (l : List ToneBufferSource) (gid : ℕ)
    (g : ToneBufferSource) (hg : g ∈ l) (hne : g.id ≠ gid) :
    g ∈ GrainPlayer.removeById l gid := by
  induction l with
  | nil => cases hg
  | cons a rest ih =>
      rw [removeById_cons]
      by_cases ha : a.id = gid
      · rw [if_pos ha]
        rcases List.mem_cons.mp hg with hga | hgrest
        · exact absurd (hga ▸ ha) hne
        · exact hgrest
      · rw [if_neg ha]
        rcases List.mem_cons.mp hg with hga | hgrest
        · exact hga ▸ List.mem_cons_self a _
        · exact List.mem_cons_of_mem a (ih hgrest)

/-- A tick on a running, non-looping player whose computed offset has
passed the end of the buffer stops the player: the whole tick collapses
to the stop handler run on the state with both machines halted. -/
theorem processTick_stop_eq (s : GrainPlayer) (t : ℚ)
    (hclock : s.clock.state = PlayState.started)
    (hsrc : s.sourceState = PlayState.started)
    (hloop : s.loop = false)
    (hoff : s.clock.ticks * (1 / s.clock.frequency) > s.bufferDuration) :
    GrainPlayer.processTick s t =
      GrainPlayer._onstop
        { s with
          sourceState := PlayState.stopped
          clock := { s.clock with state := PlayState.stopped } } t := by
  have hoff' : s.bufferDuration < s.clock.ticks * s.clock.frequency⁻¹ := by
    rw [← one_div]; exact hoff
  simp [GrainPlayer.processTick, GrainPlayer._tick, GrainPlayer.stop,
    GrainPlayer._stop, GrainPlayer.clockStop, GrainPlayer.advanceIfRunning,
    GrainPlayer._onstop, toSeconds, hclock, hsrc, hloop, hoff']

/-- A tick on a running player that is looping or whose computed offset
has not passed the end of the buffer spawns exactly the grain
`grainFor s t`, appends it to the active sources, and advances the tick
counter. -/
theorem processTick_spawn_eq (s : GrainPlayer) (t : ℚ)
    (hclock : s.clock.state = PlayState.started)
    (hspawn : ¬(s.loop = false ∧
      s.clock.ticks * (1 / s.clock.frequency) > s.bufferDuration)) :
    GrainPlayer.processTick s t =
      { s with
        _activeSources := s._activeSources ++ [GrainPlayer.grainFor s t]
        nextId := s.nextId + 1
        clock := { s.clock with ticks := s.clock.ticks + 1 } } := by
  have hcond : ¬(s.loop = false ∧
      s.bufferDuration < s.clock.ticks * s.clock.frequency⁻¹) := by
    rintro ⟨h1, h2⟩
    exact hspawn ⟨h1, by rw [one_div]; exact h2⟩
  simp [GrainPlayer.processTick, GrainPlayer._tick,
    GrainPlayer.advanceIfRunning, hclock, hcond]

/-- A stopped clock produces no ticks: processing a tick on a player
whose clock is stopped changes nothing. -/
theorem processTick_stopped (s : GrainPlayer) (t : ℚ)
    (h : s.clock.state = PlayState.stopped) :
    GrainPlayer.processTick s t = s := by
  simp [GrainPlayer.processTick, h]

/-- C1: for every valid `playbackRate > 0.001` and `grainSize > 0`,
immediately after assigning either the `playbackRate` setter or the
`grainSize` setter, the clock's tick frequency equals the stored
`playbackRate / grainSize` — each setter recomputes and applies the
derived frequency. -/
theorem setter_applies_derived_frequency (s : GrainPlayer) (rate size : ℚ)
    (hrate : 1 / 1000 < rate) (hsize : 0 < size)
    (hstored : 0 < s._grainSize) :
    (∃ s', GrainPlayer.set_playbackRate s rate = Except.ok s' ∧
      s'._playbackRate = rate ∧ s'._grainSize = s._grainSize ∧
      s'.clock.frequency = s'._playbackRate / s'._grainSize) ∧
    ((GrainPlayer.set_grainSize s size)._playbackRate = s._playbackRate ∧
      (GrainPlayer.set_grainSize s size)._grainSize = size ∧
      (GrainPlayer.set_grainSize s size).clock.frequency =
        (GrainPlayer.set_grainSize s size)._playbackRate /
          (GrainPlayer.set_grainSize s size)._grainSize) := by
  constructor
  · refine ⟨GrainPlayer.set_grainSize { s with _playbackRate := rate }
      s._grainSize, ?_, rfl, rfl, rfl⟩
    simp only [GrainPlayer.set_playbackRate, assertRange]
    rw [if_neg (not_le.mpr hrate)]
  · exact ⟨rfl, rfl, rfl⟩

/-- C1 witness: the theorem applied to the concrete default state with
`rate = 2` and `size = 1/2`. -/
theorem setter_applies_derived_frequency_witness :
    ((1 : ℚ) / 1000 < 2 ∧ (0 : ℚ) < 1 / 2 ∧ 0 < sample._grainSize) ∧
    ((∃ s', GrainPlayer.set_playbackRate sample 2 = Except.ok s' ∧
      s'._playbackRate = 2 ∧ s'._grainSize = sample._grainSize ∧
      s'.clock.frequency = s'._playbackRate / s'._grainSize) ∧
    ((GrainPlayer.set_grainSize sample (1 / 2))._playbackRate =
        sample._playbackRate ∧
      (GrainPlayer.set_grainSize sample (1 / 2))._grainSize = 1 / 2 ∧
      (GrainPlayer.set_grainSize sample (1 / 2)).clock.frequency =
        (GrainPlayer.set_grainSize sample (1 / 2))._playbackRate /
          (GrainPlayer.set_grainSize sample (1 / 2))._grainSize)) :=
  ⟨⟨by norm_num, by norm_num, by norm_num [sample]⟩,
    setter_applies_derived_frequency sample 2 (1 / 2) (by norm_num)
      (by norm_num) (by norm_num [sample])⟩

/-- C7: assigning the `playbackRate` setter a value less than or equal
to the `0.001` floor signals a range error — the setter returns no new
state, so the previously stored `playbackRate` and the clock frequency
derived from it are retained untouched; a value strictly greater than
`0.001` is accepted, stored, and the clock frequency recomputed from
it. -/
theorem playbackRate_range_guard (s : GrainPlayer) (rate : ℚ) :
    (rate ≤ 1 / 1000 →
      GrainPlayer.set_playbackRate s rate =
        Except.error "Value is outside the range") ∧
    (1 / 1000 < rate →
      ∃ s', GrainPlayer.set_playbackRate s rate = Except.ok s' ∧
        s'._playbackRate = rate ∧ s'._grainSize = s._grainSize ∧
        s'.clock.frequency = rate / s._grainSize) := by
  constructor
  · intro hle
    simp only [GrainPlayer.set_playbackRate, assertRange]
    rw [if_pos hle]
  · intro hgt
    refine ⟨GrainPlayer.set_grainSize { s with _playbackRate := rate }
      s._grainSize, ?_, rfl, rfl, rfl⟩
    simp only [GrainPlayer.set_playbackRate, assertRange]
    rw [if_neg (not_le.mpr hgt)]

/-- C7 witness: the theorem applied at the boundary `rate = 1/1000`
(rejected, the stored state untouched) and at `rate = 1/500`
(accepted). -/
theorem playbackRate_range_guard_witness :
    ((1 : ℚ) / 1000 ≤ 1 / 1000 ∧
      GrainPlayer.set_playbackRate sample (1 / 1000) =
        Except.error "Value is outside the range") ∧
    ((1 : ℚ) / 1000 < 1 / 500 ∧
      ∃ s', GrainPlayer.set_playbackRate sample (1 / 500) = Except.ok s' ∧
        s'._playbackRate = 1 / 500 ∧ s'._grainSize = sample._grainSize ∧
        s'.clock.frequency = 1 / 500 / sample._grainSize) :=
  ⟨⟨by norm_num,
      (playbackRate_range_guard sample (1 / 1000)).1 (by norm_num)⟩,
    ⟨by norm_num,
      (playbackRate_range_guard sample (1 / 500)).2 (by norm_num)⟩⟩

/-- C2: on a tick at time `t` of a running player, when `loop` is false
and the computed offset — tick index times the reciprocal of the clock's
frequency — exceeds the buffer's duration, the scheduler stops itself at
`t` and spawns no grain; in every other case the tick leaves the player
running, so this is the only internally-triggered stop; and once stopped
no further tick changes anything. -/
theorem tick_self_stop (s : GrainPlayer) (t : ℚ)
    (hclock : s.clock.state = PlayState.started)
    (hsrc : s.sourceState = PlayState.started) :
    ((s.loop = false ∧
        s.clock.ticks * (1 / s.clock.frequency) > s.bufferDuration) →
      (GrainPlayer.processTick s t).clock.state = PlayState.stopped ∧
      (GrainPlayer.processTick s t).sourceState = PlayState.stopped ∧
      (GrainPlayer.processTick s t).nextId = s.nextId ∧
      (GrainPlayer.processTick s t)._activeSources.length =
        s._activeSources.length ∧
      (GrainPlayer.processTick s t).onstopFired = s.onstopFired ++ [t] ∧
      ∀ t', GrainPlayer.processTick (GrainPlayer.processTick s t) t' =
        GrainPlayer.processTick s t) ∧
    (¬(s.loop = false ∧
        s.clock.ticks * (1 / s.clock.frequency) > s.bufferDuration) →
      (GrainPlayer.processTick s t).clock.state = PlayState.started ∧
      (GrainPlayer.processTick s t).sourceState = s.sourceState) := by
  constructor
  · rintro ⟨hloop, hoff⟩
    rw [processTick_stop_eq s t hclock hsrc hloop hoff]
    refine ⟨rfl, rfl, rfl, by simp [GrainPlayer._onstop], rfl, ?_⟩
    intro t'
    exact processTick_stopped _ t' rfl
  · intro hspawn
    rw [processTick_spawn_eq s t hclock hspawn]
    exact ⟨hclock, rfl⟩

/-- C2 witness: the theorem applied to the running default player caught
at tick index 11 (offset 2.2, past the 2-second buffer), at `t = 2.2`. -/
theorem tick_self_stop_witness :
    (sampleRunning.clock.state = PlayState.started ∧
      sampleRunning.sourceState = PlayState.started ∧
      sampleRunning.loop = false ∧
      sampleRunning.clock.ticks * (1 / sampleRunning.clock.frequency) >
        sampleRunning.bufferDuration) ∧
    ((GrainPlayer.processTick sampleRunning (11 / 5)).clock.state =
        PlayState.stopped ∧
      (GrainPlayer.processTick sampleRunning (11 / 5)).sourceState =
        PlayState.stopped ∧
      (GrainPlayer.processTick sampleRunning (11 / 5)).nextId =
        sampleRunning.nextId ∧
      (GrainPlayer.processTick sampleRunning (11 / 5))._activeSources.length =
        sampleRunning._activeSources.length ∧
      (GrainPlayer.processTick sampleRunning (11 / 5)).onstopFired =
        sampleRunning.onstopFired ++ [11 / 5] ∧
      ∀ t', GrainPlayer.processTick
          (GrainPlayer.processTick sampleRunning (11 / 5)) t' =
        GrainPlayer.processTick sampleRunning (11 / 5)) :=
  ⟨⟨rfl, rfl, rfl, by norm_num [sampleRunning, sample]⟩,
    (tick_self_stop sampleRunning (11 / 5) rfl rfl).1
      ⟨rfl, by norm_num [sampleRunning, sample]⟩⟩

/-- C3: every grain spawned by a tick at time `t` with tick index `k` is
started at `t` reading from buffer offset `grainSize * k`, and is
scheduled to stop at `t + grainSize / playbackRate`. -/
theorem grain_start_stop_schedule (s : GrainPlayer) (t : ℚ)
    (hclock : s.clock.state = PlayState.started)
    (hspawn : ¬(s.loop = false ∧
      s.clock.ticks * (1 / s.clock.frequency) > s.bufferDuration)) :
    (GrainPlayer.processTick s t)._activeSources =
      s._activeSources ++ [GrainPlayer.grainFor s t] ∧
    (GrainPlayer.grainFor s t).startTime = some t ∧
    (GrainPlayer.grainFor s t).startOffset =
      some (s._grainSize * s.clock.ticks) ∧
    (GrainPlayer.grainFor s t).stopTime =
      some (t + s._grainSize / s._playbackRate) := by
  rw [processTick_spawn_eq s t hclock hspawn]
  exact ⟨rfl, rfl, rfl, rfl⟩

/-- C3 witness: the theorem applied to the running default player caught
mid-buffer at tick index 3, at `t = 3/5`: the spawned grain starts at
`3/5` reading from offset `0.2 * 3 = 0.6` and stops at `3/5 + 0.2/1`. -/
theorem grain_start_stop_schedule_witness :
    (sampleMid.clock.state = PlayState.started ∧
      ¬(sampleMid.loop = false ∧
        sampleMid.clock.ticks * (1 / sampleMid.clock.frequency) >
          sampleMid.bufferDuration)) ∧
    ((GrainPlayer.processTick sampleMid (3 / 5))._activeSources =
      sampleMid._activeSources ++ [GrainPlayer.grainFor sampleMid (3 / 5)] ∧
    (GrainPlayer.grainFor sampleMid (3 / 5)).startTime = some (3 / 5) ∧
    (GrainPlayer.grainFor sampleMid (3 / 5)).startOffset =
      some (sampleMid._grainSize * sampleMid.clock.ticks) ∧
    (GrainPlayer.grainFor sampleMid (3 / 5)).stopTime =
      some (3 / 5 + sampleMid._grainSize / sampleMid._playbackRate)) :=
  ⟨⟨rfl, by norm_num [sampleMid, sampleRunning, sample]⟩,
    grain_start_stop_schedule sampleMid (3 / 5) rfl
      (by norm_num [sampleMid, sampleRunning, sample])⟩

/-- C4: every spawned grain has `fadeIn = 0` when its computed offset is
strictly below the overlap and `fadeIn = overlap` otherwise, and always
has `fadeOut = overlap`. -/
theorem grain_fades (s : GrainPlayer) (t : ℚ)
    (hclock : s.clock.state = PlayState.started)
    (hspawn : ¬(s.loop = false ∧
      s.clock.ticks * (1 / s.clock.frequency) > s.bufferDuration)) :
    (GrainPlayer.processTick s t)._activeSources =
      s._activeSources ++ [GrainPlayer.grainFor s t] ∧
    (s.clock.ticks * (1 / s.clock.frequency) < s._overlap →
      (GrainPlayer.grainFor s t).fadeIn = 0) ∧
    (s._overlap ≤ s.clock.ticks * (1 / s.clock.frequency) →
      (GrainPlayer.grainFor s t).fadeIn = s._overlap) ∧
    (GrainPlayer.grainFor s t).fadeOut = s._overlap := by
  refine ⟨?_, ?_, ?_, rfl⟩
  · exact (processTick_spawn_eq s t hclock hspawn) ▸ rfl
  · intro h
    rw [one_div] at h
    simp [GrainPlayer.grainFor, ToneBufferSource.start, ToneBufferSource.stop, h]
  · intro h
    rw [one_div] at h
    simp [GrainPlayer.grainFor, ToneBufferSource.start, ToneBufferSource.stop,
      not_lt.mpr h]

/-- C4 witness: the theorem applied at tick index 0 (offset 0 below the
overlap 0.1: fade-in 0) and at tick index 3 (offset 0.6 at or above the
overlap: fade-in equals the overlap); fade-out is the overlap in both. -/
theorem grain_fades_witness :
    (sampleAtStart.clock.state = PlayState.started ∧
      ¬(sampleAtStart.loop = false ∧
        sampleAtStart.clock.ticks * (1 / sampleAtStart.clock.frequency) >
          sampleAtStart.bufferDuration) ∧
      sampleAtStart.clock.ticks * (1 / sampleAtStart.clock.frequency) <
        sampleAtStart._overlap ∧
      (GrainPlayer.grainFor sampleAtStart 0).fadeIn = 0) ∧
    (sampleMid._overlap ≤
        sampleMid.clock.ticks * (1 / sampleMid.clock.frequency) ∧
      (GrainPlayer.grainFor sampleMid (3 / 5)).fadeIn = sampleMid._overlap ∧
      (GrainPlayer.grainFor sampleMid (3 / 5)).fadeOut = sampleMid._overlap) :=
  ⟨⟨rfl, by norm_num [sampleAtStart, sampleRunning, sample],
      by norm_num [sampleAtStart, sampleRunning, sample],
      (grain_fades sampleAtStart 0 rfl
          (by norm_num [sampleAtStart, sampleRunning, sample])).2.1
        (by norm_num [sampleAtStart, sampleRunning, sample])⟩,
    ⟨by norm_num [sampleMid, sampleRunning, sample],
      (grain_fades sampleMid (3 / 5) rfl
          (by norm_num [sampleMid, sampleRunning, sample])).2.2.1
        (by norm_num [sampleMid, sampleRunning, sample]),
      (grain_fades sampleMid (3 / 5) rfl
          (by norm_num [sampleMid, sampleRunning, sample])).2.2.2⟩⟩

/-- C5 counterexample: stopping the running default player, which has one
grain in flight, leaves the active set nonempty immediately after the
stop handler completes — the claim's "the active set is empty immediately
after the stop handler completes" is false. The grain leaves the set only
later, through its completion notification. -/
theorem stop_leaves_active_set_nonempty :
    ¬((GrainPlayer.stop sampleRunning 2)._activeSources = []) := by
  simp [GrainPlayer.stop, GrainPlayer._stop, GrainPlayer.clockStop,
    GrainPlayer._onstop, toSeconds, sampleRunning, sample]

/-- C5 amended: the stop handler sets `fadeOut = 0` on every grain in the
active set and gives each a stop call at `t`, then fires the stopped
notification; the membership of the active set is unchanged by the
handler itself (each grain is removed only later, by its completion
notification). -/
theorem onstop_forces_fadeout (s : GrainPlayer) (t : ℚ) :
    (GrainPlayer._onstop s t)._activeSources =
      s._activeSources.map
        (fun g => { g with fadeOut := 0, stopTime := some t }) ∧
    (GrainPlayer._onstop s t).onstopFired = s.onstopFired ++ [t] ∧
    (GrainPlayer._onstop s t)._activeSources.length =
      s._activeSources.length := by
  exact ⟨rfl, rfl, by simp [GrainPlayer._onstop]⟩

/-- C6: `restart(t, offset, duration)` called while started is the same
state transformation as `stop(t)` immediately followed by
`start(t, offset, duration)`; called while stopped it is a no-op. -/
theorem restart_equiv (s : GrainPlayer) (t : ℚ)
    (offset duration : Option ℚ) :
    (s.sourceState = PlayState.started →
      GrainPlayer.restart s t offset duration =
        GrainPlayer.start (GrainPlayer.stop s t) t offset duration) ∧
    (s.sourceState = PlayState.stopped →
      GrainPlayer.restart s t offset duration = s) := by
  constructor
  · intro hsrc
    cases hclk : s.clock.state <;> cases duration <;>
      simp [GrainPlayer.restart, GrainPlayer.start, GrainPlayer.stop,
        GrainPlayer._stop, GrainPlayer.clockStop, GrainPlayer._start,
        GrainPlayer._onstop, toSeconds, defaultArg, hsrc, hclk]
  · intro hsrc
    simp [GrainPlayer.restart, hsrc]

/-- C6 witness: the theorem applied to the running player (restart equals
stop-then-start) and to the stopped default player (restart is a
no-op). -/
theorem restart_equiv_witness :
    (sampleRunning.sourceState = PlayState.started ∧
      GrainPlayer.restart sampleRunning 1 (some (1 / 2)) (some 3) =
        GrainPlayer.start (GrainPlayer.stop sampleRunning 1) 1
          (some (1 / 2)) (some 3)) ∧
    (sample.sourceState = PlayState.stopped ∧
      GrainPlayer.restart sample 1 (some (1 / 2)) (some 3) = sample) :=
  ⟨⟨rfl, (restart_equiv sampleRunning 1 (some (1 / 2)) (some 3)).1 rfl⟩,
    ⟨rfl, (restart_equiv sample 1 (some (1 / 2)) (some 3)).2 rfl⟩⟩

/-- C8 counterexample: `_start` with a supplied `duration = 0` schedules
no automatic stop (`if (duration)` treats the zero value as absent) — the
claim's "whenever a duration argument is supplied, schedules an automatic
stop at time + duration" is false at `duration = 0`. -/
theorem start_zero_duration_no_stop :
    ¬((GrainPlayer._start sample 5 none (some 0)).scheduledStop =
      some (5 + 0)) := by
  simp [GrainPlayer._start, toSeconds, defaultArg, sample]

/-- C8 amended: `_start(time, offset, duration)` defaults `offset` to 0,
resolves `time` and `offset` to seconds, starts the clock at `time` with
initial tick count `offset / grainDuration` where `grainDuration` is the
reciprocal of the clock's instantaneous frequency, leaves the frequency
itself unchanged, and — whenever a nonzero `duration` is supplied —
schedules an automatic stop at `time + duration` (an absent or zero
duration schedules none). -/
theorem start_schedules_clock (s : GrainPlayer) (t : ℚ)
    (offset duration : Option ℚ) :
    GrainPlayer._start s t none duration =
      GrainPlayer._start s t (some 0) duration ∧
    (GrainPlayer._start s t offset duration).clock.state =
      PlayState.started ∧
    (GrainPlayer._start s t offset duration).clock.startTime =
      some (toSeconds t) ∧
    (GrainPlayer._start s t offset duration).clock.ticks =
      toSeconds (defaultArg offset 0) / (1 / s.clock.frequency) ∧
    (GrainPlayer._start s t offset duration).clock.frequency =
      s.clock.frequency ∧
    (∀ d, duration = some d → d ≠ 0 →
      (GrainPlayer._start s t offset duration).scheduledStop =
        some (toSeconds t + toSeconds d)) ∧
    ((duration = none ∨ duration = some 0) →
      (GrainPlayer._start s t offset duration).scheduledStop =
        s.scheduledStop) := by
  cases duration with
  | none =>
      refine ⟨rfl, rfl, rfl, rfl, rfl, ?_, fun _ => rfl⟩
      intro d hd
      exact absurd hd (by simp)
  | some d =>
      by_cases hd : d = 0
      · subst hd
        refine ⟨rfl, by simp [GrainPlayer._start],
          by simp [GrainPlayer._start], by simp [GrainPlayer._start],
          by simp [GrainPlayer._start], ?_, ?_⟩
        · intro d' hd' hne
          rw [Option.some_inj] at hd'
          exact absurd hd'.symm hne
        · intro _
          simp [GrainPlayer._start]
      · refine ⟨rfl, by simp [GrainPlayer._start, hd],
          by simp [GrainPlayer._start, hd],
          by simp [GrainPlayer._start, hd, toSeconds, defaultArg],
          by simp [GrainPlayer._start, hd], ?_, ?_⟩
        · intro d' hd' hne
          rw [Option.some_inj] at hd'
          subst hd'
          simp [GrainPlayer._start, hne]
        · intro hcontra
          rcases hcontra with h | h
          · exact absurd h (by simp)
          · rw [Option.some_inj] at h
            exact absurd h hd

/-- C8 amended witness: the theorem applied to the stopped default player
at `t = 5`, `offset = 1`, `duration = 2`: the clock starts at 5 with tick
count `1 / (1/5) = 5` and an automatic stop is scheduled at 7. -/
theorem start_schedules_clock_witness :
    (GrainPlayer._start sample 5 none (some 2) =
      GrainPlayer._start sample 5 (some 0) (some 2) ∧
    (GrainPlayer._start sample 5 (some 1) (some 2)).clock.state =
      PlayState.started ∧
    (GrainPlayer._start sample 5 (some 1) (some 2)).clock.startTime =
      some (toSeconds 5) ∧
    (GrainPlayer._start sample 5 (some 1) (some 2)).clock.ticks =
      toSeconds (defaultArg (some 1) 0) / (1 / sample.clock.frequency) ∧
    (GrainPlayer._start sample 5 (some 1) (some 2)).clock.frequency =
      sample.clock.frequency ∧
    (∀ d, (some (2 : ℚ) : Option ℚ) = some d → d ≠ 0 →
      (GrainPlayer._start sample 5 (some 1) (some 2)).scheduledStop =
        some (toSeconds 5 + toSeconds d)) ∧
    (((some (2 : ℚ) : Option ℚ) = none ∨
        (some (2 : ℚ) : Option ℚ) = some 0) →
      (GrainPlayer._start sample 5 (some 1) (some 2)).scheduledStop =
        sample.scheduledStop)) ∧
    (GrainPlayer._start sample 5 (some 1) (some 2)).scheduledStop =
      some (5 + 2) :=
  ⟨start_schedules_clock sample 5 (some 1) (some 2),
    (start_schedules_clock sample 5 (some 1) (some 2)).2.2.2.2.2.1 2 rfl
      (by norm_num)⟩

/-- C9: the completion handler removes the finished grain from the active
set (when ids are pairwise distinct, as spawning guarantees), keeps every
other grain, and is idempotent: run on a set not containing the grain —
in particular a second time — it changes nothing, so duplicate
notifications never corrupt the set. -/
theorem onended_removal (s : GrainPlayer) (gid : ℕ)
    (hnodup : (s._activeSources.map ToneBufferSource.id).Nodup) :
    (∀ g ∈ (GrainPlayer.onended s gid)._activeSources, g.id ≠ gid) ∧
    (∀ g ∈ s._activeSources, g.id ≠ gid →
      g ∈ (GrainPlayer.onended s gid)._activeSources) ∧
    GrainPlayer.onended (GrainPlayer.onended s gid) gid =
      GrainPlayer.onended s gid ∧
    ((∀ g ∈ s._activeSources, g.id ≠ gid) →
      GrainPlayer.onended s gid = s) := by
  have h1 := mem_removeById_ne s._activeSources gid hnodup
  refine ⟨fun g hg => h1 g hg,
    fun g hg hne => mem_removeById_of_ne _ gid g hg hne, ?_, ?_⟩
  · have h2 : GrainPlayer.removeById
        (GrainPlayer.removeById s._activeSources gid) gid =
        GrainPlayer.removeById s._activeSources gid :=
      removeById_of_not_mem _ gid h1
    simp only [GrainPlayer.onended, h2]
  · intro h
    simp only [GrainPlayer.onended, removeById_of_not_mem s._activeSources gid h]

/-- C9 witness: the theorem applied to the running player holding two
grains with distinct ids 0 and 1, removing id 0. -/
theorem onended_removal_witness :
    (sampleTwo._activeSources.map ToneBufferSource.id).Nodup ∧
    ((∀ g ∈ (GrainPlayer.onended sampleTwo 0)._activeSources, g.id ≠ 0) ∧
    (∀ g ∈ sampleTwo._activeSources, g.id ≠ 0 →
      g ∈ (GrainPlayer.onended sampleTwo 0)._activeSources) ∧
    GrainPlayer.onended (GrainPlayer.onended sampleTwo 0) 0 =
      GrainPlayer.onended sampleTwo 0 ∧
    ((∀ g ∈ sampleTwo._activeSources, g.id ≠ 0) →
      GrainPlayer.onended sampleTwo 0 = sampleTwo)) :=
  ⟨by decide, onended_removal sampleTwo 0 (by decide)⟩

/-- C10: the `overlap` setter accepts any value — negative ones and ones
above the grain size included — without validation, stores the
seconds-resolved value, and changes nothing else: clock, playback rate,
grain size, active sources and player state are untouched. -/
theorem overlap_setter_frame (s : GrainPlayer) (v : ℚ) :
    ∃ s', GrainPlayer.set_overlap s v = Except.ok s' ∧
      s'._overlap = toSeconds v ∧
      s'.clock = s.clock ∧
      s'._playbackRate = s._playbackRate ∧
      s'._grainSize = s._grainSize ∧
      s'._activeSources = s._activeSources ∧
      s'.sourceState = s.sourceState ∧
      s'.loop = s.loop ∧
      s'.detune = s.detune :=
  ⟨{ s with _overlap := toSeconds v },
    rfl, rfl, rfl, rfl, rfl, rfl, rfl, rfl, rfl⟩

end Tone
